import Mathlib

/-!
Shallow embedding of the `parcom` parser-combinator library
(src/parser.rs, src/combinators.rs, src/xml.rs).

Modelling choices:
* Rust's input view `&'a str` is modelled as `List Char` (a suffix view of
  the source text); `ParseResult<'a, T> = Result<(T, &'a str), &'a str>`
  becomes `Except (List Char) (T × List Char)`.
* A Rust parser closure may diverge: `zero_or_more` / `one_or_more` are
  `while let Ok` loops that never terminate when the inner parser succeeds
  without consuming.  A parser is therefore `List Char → Option (ParseResult α)`
  where `none` models divergence of such a loop; the loops themselves take an
  explicit fuel bound, and exhausting the fuel yields `none`.
* Rust `String` values produced by the grammar are modelled as `List Char`.
* Rust's `char::is_alphabetic`, `char::is_alphanumeric` and
  `char::is_whitespace` are Unicode-aware; every input exercised by the
  claims is ASCII, where they coincide with `Char.isAlpha`, `Char.isAlphanum`
  and `Char.isWhitespace`.
-/

namespace Parcom

abbrev Input := List Char

abbrev ParseResult (α : Type) := Except Input (α × Input)

/-- A parser: `none` models divergence of an inner repetition loop. -/
abbrev Parser (α : Type) := Input → Option (ParseResult α)

/-- combinators.rs `map`: on success apply the function to the value and pass
the remainder through; on failure propagate the failure view unchanged. -/
def map {α β : Type} (p : Parser α) (f : α → β) : Parser β := fun input =>
  match p input with
  | none => none
  | some (.error e) => some (.error e)
  | some (.ok (a, next)) => some (.ok (f a, next))

/-- combinators.rs `and_then`: run the parser, and on success run the parser
obtained from the value on the remainder; either stage's failure propagates. -/
def and_then {α β : Type} (p : Parser α) (f : α → Parser β) : Parser β := fun input =>
  match p input with
  | none => none
  | some (.error e) => some (.error e)
  | some (.ok (a, next)) => f a next

/-- combinators.rs `pred`: run the parser; fail with the ORIGINAL input view
both when the parser fails and when the predicate rejects its value. -/
def pred {α : Type} (p : Parser α) (f : α → Bool) : Parser α := fun input =>
  match p input with
  | none => none
  | some (.ok (a, next)) => if f a then some (.ok (a, next)) else some (.error input)
  | some (.error _) => some (.error input)

/-- combinators.rs `pair`: run the first parser, then the second on its
remainder; combine the values; either stage's failure view propagates. -/
def pair {α β : Type} (p1 : Parser α) (p2 : Parser β) : Parser (α × β) := fun input =>
  match p1 input with
  | none => none
  | some (.error e) => some (.error e)
  | some (.ok (r1, next)) =>
    match p2 next with
    | none => none
    | some (.error e) => some (.error e)
    | some (.ok (r2, fin)) => some (.ok ((r1, r2), fin))

/-- combinators.rs `left`: `pair` keeping only the first value. -/
def left {α β : Type} (p1 : Parser α) (p2 : Parser β) : Parser α :=
  map (pair p1 p2) Prod.fst

/-- combinators.rs `right`: `pair` keeping only the second value. -/
def right {α β : Type} (p1 : Parser α) (p2 : Parser β) : Parser β :=
  map (pair p1 p2) Prod.snd

/-- The `while let Ok(...) = parser.parse(input)` loop shared by
`one_or_more` and `zero_or_more`: repeatedly apply the parser, collecting
values in order, until it fails; the failing attempt's view is discarded and
the input before it is returned.  Fuel exhaustion (`none`) models the loop
never terminating. -/
def repParse {α : Type} (p : Parser α) : Nat → Input → Option (List α × Input)
  | 0, _ => none
  | fuel + 1, input =>
    match p input with
    | none => none
    | some (.error _) => some ([], input)
    | some (.ok (a, next)) =>
      match repParse p fuel next with
      | none => none
      | some (as, fin) => some (a :: as, fin)

/-- combinators.rs `zero_or_more`: the repetition loop alone; always returns
`Ok` when it terminates. -/
def zero_or_more {α : Type} (fuel : Nat) (p : Parser α) : Parser (List α) := fun input =>
  match repParse p fuel input with
  | none => none
  | some (as, fin) => some (.ok (as, fin))

/-- combinators.rs `one_or_more`: a required first application — whose failure
returns `Err` carrying the ORIGINAL input — followed by the repetition loop. -/
def one_or_more {α : Type} (fuel : Nat) (p : Parser α) : Parser (List α) := fun input =>
  match p input with
  | none => none
  | some (.error _) => some (.error input)
  | some (.ok (a, next)) =>
    match repParse p fuel next with
    | none => none
    | some (as, fin) => some (.ok (a :: as, fin))

/-- combinators.rs `either`: try the first parser; on its failure (discarded)
run the second parser on the same original input. -/
def either {α : Type} (p1 p2 : Parser α) : Parser α := fun input =>
  match p1 input with
  | none => none
  | some (.ok r) => some (.ok r)
  | some (.error _) => p2 input

/-- xml.rs `Element`: name, ordered attribute pairs, ordered children.
Rust `String` fields are modelled as `List Char`. -/
structure Element where
  name : List Char
  attributes : List (List Char × List Char)
  children : List Element

/-- xml.rs `any_char`: consume exactly one character; fail on empty input. -/
def any_char : Parser Char := fun input =>
  match input with
  | next :: rest => some (.ok (next, rest))
  | [] => some (.error input)

/-- xml.rs `match_literal`: strip the expected prefix, else fail with the
input untouched. -/
def match_literal (expected : List Char) : Parser Unit := fun input =>
  if expected.isPrefixOf input then
    some (.ok ((), input.drop expected.length))
  else
    some (.error input)

/-- xml.rs `whitespace_char`: one whitespace character, via `pred`. -/
def whitespace_char : Parser Char :=
  pred any_char (fun c => c.isWhitespace)

/-- xml.rs `space1`: one or more whitespace characters. -/
def space1 (fuel : Nat) : Parser (List Char) :=
  one_or_more fuel whitespace_char

/-- xml.rs `space0`: zero or more whitespace characters. -/
def space0 (fuel : Nat) : Parser (List Char) :=
  zero_or_more fuel whitespace_char

/-- xml.rs `identifier`: one alphabetic character, then alphanumeric or `-`
characters; the remainder is the input past the matched prefix. -/
def identifier : Parser (List Char) := fun input =>
  match input with
  | next :: rest =>
    if next.isAlpha then
      let matched := next :: rest.takeWhile (fun ch => ch.isAlphanum || ch == '-')
      some (.ok (matched, input.drop matched.length))
    else
      some (.error input)
  | [] => some (.error input)

/-- xml.rs `quoted_string`: `"`, zero or more non-`"` characters, `"`; the
characters collected verbatim as the value. -/
def quoted_string (fuel : Nat) : Parser (List Char) :=
  map
    (right (match_literal ['"'])
      (left (zero_or_more fuel (pred any_char (fun c => c != '"')))
        (match_literal ['"'])))
    (fun chars => chars)

/-- xml.rs `attribute_pair`: `identifier`, literal `=`, `quoted_string`. -/
def attribute_pair (fuel : Nat) : Parser (List Char × List Char) :=
  pair identifier (right (match_literal ['=']) (quoted_string fuel))

/-- xml.rs `attributes`: zero or more of (mandatory whitespace, then an
attribute pair). -/
def attributes (fuel : Nat) : Parser (List (List Char × List Char)) :=
  zero_or_more fuel (right (space1 fuel) (attribute_pair fuel))

/-- xml.rs `element_start`: literal `<`, then identifier and attributes. -/
def element_start (fuel : Nat) : Parser (List Char × List (List Char × List Char)) :=
  right (match_literal ['<']) (pair identifier (attributes fuel))

/-- xml.rs `whitespace_wrap`: permit leading and trailing whitespace. -/
def whitespace_wrap {α : Type} (fuel : Nat) (p : Parser α) : Parser α :=
  right (space0 fuel) (left p (space0 fuel))

/-- xml.rs `open_element`: `element_start`, optional whitespace, literal `>`;
builds an `Element` with empty children; whitespace-wrapped. -/
def open_element (fuel : Nat) : Parser Element :=
  whitespace_wrap fuel
    (map (left (element_start fuel) (left (space0 fuel) (match_literal ['>'])))
      (fun x => { name := x.1, attributes := x.2, children := [] }))

/-- xml.rs `self_closing_element`: `element_start`, optional whitespace,
literal `/>`; builds an `Element` with empty children; whitespace-wrapped. -/
def self_closing_element (fuel : Nat) : Parser Element :=
  whitespace_wrap fuel
    (map (left (element_start fuel) (left (space0 fuel) (match_literal ['/', '>'])))
      (fun x => { name := x.1, attributes := x.2, children := [] }))

/-- xml.rs `single_element`: ordered choice of `self_closing_element` first,
`open_element` second; whitespace-wrapped. -/
def single_element (fuel : Nat) : Parser Element :=
  whitespace_wrap fuel (either (self_closing_element fuel) (open_element fuel))

/-- xml.rs `close_element`: literal `</`, identifier, literal `>`, filtered so
the captured identifier equals the expected name. -/
def close_element (fuel : Nat) (expected_name : List Char) : Parser (List Char) :=
  whitespace_wrap fuel
    (pred (right (match_literal ['<', '/']) (left identifier (match_literal ['>'])))
      (fun name => name == expected_name))

/-- xml.rs `parent_element`: `open_element`, then (value-dependent) zero or
more `single_element` children closed by `close_element` with the open tag's
name; the children are filled into the open element. -/
def parent_element (fuel : Nat) : Parser Element :=
  whitespace_wrap fuel
    (and_then (open_element fuel) (fun el =>
      map (left (zero_or_more fuel (single_element fuel)) (close_element fuel el.name))
        (fun children => { el with children := children })))

/-- xml.rs `element`: ordered choice of `single_element` first,
`parent_element` second. -/
def element (fuel : Nat) : Parser Element :=
  either (single_element fuel) (parent_element fuel)

/-! ### Helper lemmas about the combinators -/

theorem pred_error_view {α : Type} (p : Parser α) (f : α → Bool) (s e : Input)
    (h : pred p f s = some (.error e)) : e = s := by
  unfold pred at h
  split at h
  · exact Option.noConfusion h
  · split at h
    · simp at h
    · simp only [Option.some.injEq, Except.error.injEq] at h
      exact h.symm
  · simp only [Option.some.injEq, Except.error.injEq] at h
    exact h.symm

theorem pred_ok_elim {α : Type} (p : Parser α) (f : α → Bool) (s : Input) (a : α)
    (next : Input) (h : pred p f s = some (.ok (a, next))) :
    p s = some (.ok (a, next)) ∧ f a = true := by
  unfold pred at h
  split at h
  · exact Option.noConfusion h
  case _ b rest heq =>
    split at h
    case _ hf =>
      simp only [Option.some.injEq, Except.ok.injEq, Prod.mk.injEq] at h
      refine ⟨?_, ?_⟩
      · rw [heq, h.1, h.2]
      · rw [← h.1]; exact hf
    · simp at h
  · simp at h

theorem either_ok_left {α : Type} (p1 p2 : Parser α) (s : Input) (r : α × Input)
    (h : p1 s = some (.ok r)) : either p1 p2 s = some (.ok r) := by
  unfold either
  rw [h]

theorem either_error_right {α : Type} (p1 p2 : Parser α) (s e : Input)
    (h : p1 s = some (.error e)) : either p1 p2 s = p2 s := by
  unfold either
  rw [h]

theorem pair_error_first {α β : Type} (p1 : Parser α) (p2 : Parser β) (s e : Input)
    (h : p1 s = some (.error e)) : pair p1 p2 s = some (.error e) := by
  unfold pair
  rw [h]

theorem pair_error_second {α β : Type} (p1 : Parser α) (p2 : Parser β) (s : Input)
    (r1 : α) (next e : Input) (h1 : p1 s = some (.ok (r1, next)))
    (h2 : p2 next = some (.error e)) : pair p1 p2 s = some (.error e) := by
  simp only [pair, h1, h2]

theorem and_then_error_second {α β : Type} (p : Parser α) (f : α → Parser β) (s : Input)
    (a : α) (next e : Input) (h1 : p s = some (.ok (a, next)))
    (h2 : f a next = some (.error e)) : and_then p f s = some (.error e) := by
  simp only [and_then, h1, h2]

theorem zero_or_more_no_error {α : Type} (p : Parser α) (fuel : Nat) (s e : Input) :
    zero_or_more fuel p s ≠ some (.error e) := by
  unfold zero_or_more
  split
  · exact fun h => Option.noConfusion h
  · simp

theorem zero_or_more_first_failure {α : Type} (p : Parser α) (fuel : Nat) (s e : Input)
    (hfuel : 0 < fuel) (h : p s = some (.error e)) :
    zero_or_more fuel p s = some (.ok ([], s)) := by
  cases fuel with
  | zero => exact absurd hfuel (by simp)
  | succ m =>
    unfold zero_or_more repParse
    rw [h]

theorem one_or_more_first_failure {α : Type} (p : Parser α) (fuel : Nat) (s e : Input)
    (h : p s = some (.error e)) : one_or_more fuel p s = some (.error s) := by
  unfold one_or_more
  rw [h]

/-! ### Claim theorems: combinator layer -/

/-- Claim C1, counterexample: the claim says every failure carries the
original input view; but `pair(match_literal("<"), identifier)` on `"<!oops"`
fails with view `"!oops"` — the advanced remainder after the first stage
consumed `<` — which differs from the original input, exactly as the repo's
own `pair_comb` test asserts. -/
theorem claim1_counterexample :
    pair (match_literal ['<']) identifier "<!oops".data = some (.error "!oops".data)
      ∧ "!oops".data ≠ "<!oops".data :=
  ⟨rfl, by decide⟩

/-- Claim C1, amended: `pred` and `either` rewind failures to the original
input view, while `pair` and `and_then` propagate the failing stage's own
failure view — when the first stage succeeds consuming a prefix and the
second stage fails, the reported view is the second stage's failure view on
the advanced remainder, not the original input. -/
theorem claim1_amended :
    (∀ {α : Type} (p : Parser α) (f : α → Bool) (s e : Input),
      pred p f s = some (.error e) → e = s)
    ∧ (∀ {α : Type} (p1 p2 : Parser α) (s e : Input),
      p1 s = some (.error e) → either p1 p2 s = p2 s)
    ∧ (∀ {α β : Type} (p1 : Parser α) (p2 : Parser β) (s e : Input),
      p1 s = some (.error e) → pair p1 p2 s = some (.error e))
    ∧ (∀ {α β : Type} (p1 : Parser α) (p2 : Parser β) (s : Input) (r1 : α) (next e : Input),
      p1 s = some (.ok (r1, next)) → p2 next = some (.error e) →
        pair p1 p2 s = some (.error e))
    ∧ (∀ {α β : Type} (p : Parser α) (f : α → Parser β) (s : Input) (a : α) (next e : Input),
      p s = some (.ok (a, next)) → f a next = some (.error e) →
        and_then p f s = some (.error e)) :=
  ⟨fun p f s e h => pred_error_view p f s e h,
   fun p1 p2 s e h => either_error_right p1 p2 s e h,
   fun p1 p2 s e h => pair_error_first p1 p2 s e h,
   fun p1 p2 s r1 next e h1 h2 => pair_error_second p1 p2 s r1 next e h1 h2,
   fun p f s a next e h1 h2 => and_then_error_second p f s a next e h1 h2⟩

/-- Witness for the amended Claim C1, at concrete inputs: a rejected
predicate rewinds to the original view; `either` reruns the second parser on
the original input after the first fails; a first-stage `pair` failure
propagates; a second-stage `pair` or `and_then` failure carries the advanced
remainder `"!oops"`. -/
theorem claim1_amended_witness :
    (pred any_char (fun _ => false) "ab".data = some (.error "ab".data)
      ∧ ("ab".data : Input) = "ab".data)
    ∧ (any_char [] = some (.error [])
      ∧ either any_char any_char [] = any_char [])
    ∧ (identifier "!oops".data = some (.error "!oops".data)
      ∧ pair identifier any_char "!oops".data = some (.error "!oops".data))
    ∧ (match_literal ['<'] "<!oops".data = some (.ok ((), "!oops".data))
      ∧ identifier "!oops".data = some (.error "!oops".data)
      ∧ pair (match_literal ['<']) identifier "<!oops".data = some (.error "!oops".data))
    ∧ (and_then (match_literal ['<']) (fun _ => identifier) "<!oops".data
      = some (.error "!oops".data)) :=
  ⟨⟨rfl, (claim1_amended.1 any_char (fun _ => false) "ab".data "ab".data rfl) ▸ rfl⟩,
   ⟨rfl, claim1_amended.2.1 any_char any_char [] [] rfl⟩,
   ⟨rfl, claim1_amended.2.2.1 identifier any_char "!oops".data "!oops".data rfl⟩,
   ⟨rfl, rfl, claim1_amended.2.2.2.1 (match_literal ['<']) identifier "<!oops".data
      () "!oops".data "!oops".data rfl rfl⟩,
   claim1_amended.2.2.2.2 (match_literal ['<']) (fun _ => identifier) "<!oops".data
      () "!oops".data "!oops".data rfl rfl⟩

/-- Claim C3: `zero_or_more` never fails; and when the inner parser fails
immediately on `s` (with at least one loop iteration of fuel), it succeeds
with the empty sequence and remainder exactly `s`. -/
theorem claim3_zero_or_more_total :
    (∀ {α : Type} (p : Parser α) (fuel : Nat) (s e : Input),
      zero_or_more fuel p s ≠ some (.error e))
    ∧ (∀ {α : Type} (p : Parser α) (fuel : Nat) (s e : Input),
      0 < fuel → p s = some (.error e) → zero_or_more fuel p s = some (.ok ([], s))) :=
  ⟨fun p fuel s e => zero_or_more_no_error p fuel s e,
   fun p fuel s e hfuel h => zero_or_more_first_failure p fuel s e hfuel h⟩

/-- Witness for Claim C3: `any_char` fails on the empty input, and
`zero_or_more any_char` there returns the empty sequence with the input
unchanged. -/
theorem claim3_witness :
    (0 < 1 ∧ any_char [] = some (.error []))
    ∧ zero_or_more 1 any_char [] = some (.ok ([], [])) :=
  ⟨⟨Nat.zero_lt_one, rfl⟩,
   claim3_zero_or_more_total.2 any_char 1 [] [] Nat.zero_lt_one rfl⟩

/-- Claim C4: when the inner parser fails on `s`, `one_or_more` fails on `s`
and the failure carries exactly `s` as its view (the Rust code returns
`Err(input)` with the original, unreassigned input). -/
theorem claim4_one_or_more_min {α : Type} (p : Parser α) (fuel : Nat) (s e : Input)
    (h : p s = some (.error e)) : one_or_more fuel p s = some (.error s) :=
  one_or_more_first_failure p fuel s e h

/-- Witness for Claim C4: `any_char` fails on the empty input and
`one_or_more any_char` fails there carrying that same input. -/
theorem claim4_witness :
    any_char [] = some (.error []) ∧ one_or_more 5 any_char [] = some (.error []) :=
  ⟨rfl, claim4_one_or_more_min any_char 5 [] [] rfl⟩

/-- Claim C5: a failing `pred` (inner failure or rejected predicate) carries
the original input view; a succeeding `pred` returns the inner parser's value
and remainder unchanged, with the predicate holding on the value. -/
theorem claim5_pred :
    (∀ {α : Type} (p : Parser α) (f : α → Bool) (s e : Input),
      pred p f s = some (.error e) → e = s)
    ∧ (∀ {α : Type} (p : Parser α) (f : α → Bool) (s : Input) (a : α) (next : Input),
      pred p f s = some (.ok (a, next)) → p s = some (.ok (a, next)) ∧ f a = true) :=
  ⟨fun p f s e h => pred_error_view p f s e h,
   fun p f s a next h => pred_ok_elim p f s a next h⟩

/-- Witness for Claim C5: a predicate rejection on `"omg"` carries the
original view, and the accepting case returns `any_char`'s value and
remainder. -/
theorem claim5_witness :
    (pred any_char (fun c => c == 'x') "omg".data = some (.error "omg".data)
      ∧ ("omg".data : Input) = "omg".data)
    ∧ (pred any_char (fun c => c == 'o') "omg".data = some (.ok ('o', "mg".data))
      ∧ any_char "omg".data = some (.ok ('o', "mg".data))
      ∧ ('o' == 'x') = false) :=
  ⟨⟨rfl, (claim5_pred.1 any_char (fun c => c == 'x') "omg".data "omg".data rfl) ▸ rfl⟩,
   ⟨rfl, (claim5_pred.2 any_char (fun c => c == 'o') "omg".data 'o' "mg".data rfl).1,
    by decide⟩⟩

/-- Claim C6: `either` returns the first parser's result whenever it
succeeds, and on the first parser's failure returns exactly the result of
running the second parser on the same original input, the first failure
discarded. -/
theorem claim6_either :
    (∀ {α : Type} (p1 p2 : Parser α) (s : Input) (r : α × Input),
      p1 s = some (.ok r) → either p1 p2 s = some (.ok r))
    ∧ (∀ {α : Type} (p1 p2 : Parser α) (s e : Input),
      p1 s = some (.error e) → either p1 p2 s = p2 s) :=
  ⟨fun p1 p2 s r h => either_ok_left p1 p2 s r h,
   fun p1 p2 s e h => either_error_right p1 p2 s e h⟩

/-- Witness for Claim C6: on `"<x"`, `either` keeps a succeeding first
branch's result; on `"y"`, it runs the second branch on the original input
after the first fails. -/
theorem claim6_witness :
    (match_literal ['<'] "<x".data = some (.ok ((), "x".data))
      ∧ either (match_literal ['<']) (match_literal ['y']) "<x".data
        = some (.ok ((), "x".data)))
    ∧ (match_literal ['<'] "y".data = some (.error "y".data)
      ∧ either (match_literal ['<']) (match_literal ['y']) "y".data
        = match_literal ['y'] "y".data) :=
  ⟨⟨rfl, claim6_either.1 (match_literal ['<']) (match_literal ['y']) "<x".data
      ((), "x".data) rfl⟩,
   ⟨rfl, claim6_either.2 (match_literal ['<']) (match_literal ['y']) "y".data
      "y".data rfl⟩⟩

/-! ### Helper lemmas: success decomposition and repetition -/

theorem map_ok_elim {α β : Type} (p : Parser α) (f : α → β) (s : Input) (b : β)
    (rest : Input) (h : map p f s = some (.ok (b, rest))) :
    ∃ a, p s = some (.ok (a, rest)) ∧ b = f a := by
  unfold map at h
  split at h
  · exact Option.noConfusion h
  · simp at h
  case _ a next heq =>
    simp only [Option.some.injEq, Except.ok.injEq, Prod.mk.injEq] at h
    exact ⟨a, by rw [heq, h.2], h.1.symm⟩

theorem pair_ok_elim {α β : Type} (p1 : Parser α) (p2 : Parser β) (s : Input)
    (rv : α × β) (fin : Input) (h : pair p1 p2 s = some (.ok (rv, fin))) :
    ∃ mid, p1 s = some (.ok (rv.1, mid)) ∧ p2 mid = some (.ok (rv.2, fin)) := by
  obtain ⟨rv1, rv2⟩ := rv
  unfold pair at h
  split at h
  · exact Option.noConfusion h
  · simp at h
  case _ r1 next heq1 =>
    split at h
    · exact Option.noConfusion h
    · simp at h
    case _ r2 fin2 heq2 =>
      simp only [Option.some.injEq, Except.ok.injEq, Prod.mk.injEq] at h
      refine ⟨next, ?_, ?_⟩
      · rw [heq1, h.1.1]
      · rw [heq2, h.1.2, h.2]

theorem right_ok_elim {α β : Type} (p1 : Parser α) (p2 : Parser β) (s : Input) (b : β)
    (rest : Input) (h : right p1 p2 s = some (.ok (b, rest))) :
    ∃ a mid, p1 s = some (.ok (a, mid)) ∧ p2 mid = some (.ok (b, rest)) := by
  obtain ⟨rv, hp, hb⟩ := map_ok_elim (pair p1 p2) Prod.snd s b rest h
  obtain ⟨mid, h1, h2⟩ := pair_ok_elim p1 p2 s rv rest hp
  exact ⟨rv.1, mid, h1, by rw [hb]; exact h2⟩

theorem left_ok_elim {α β : Type} (p1 : Parser α) (p2 : Parser β) (s : Input) (a : α)
    (rest : Input) (h : left p1 p2 s = some (.ok (a, rest))) :
    ∃ mid b, p1 s = some (.ok (a, mid)) ∧ p2 mid = some (.ok (b, rest)) := by
  obtain ⟨rv, hp, ha⟩ := map_ok_elim (pair p1 p2) Prod.fst s a rest h
  obtain ⟨mid, h1, h2⟩ := pair_ok_elim p1 p2 s rv rest hp
  exact ⟨mid, rv.2, by rw [ha]; exact h1, h2⟩

theorem either_ok_elim {α : Type} (p1 p2 : Parser α) (s : Input) (r : α × Input)
    (h : either p1 p2 s = some (.ok r)) :
    p1 s = some (.ok r) ∨ p2 s = some (.ok r) := by
  unfold either at h
  split at h
  · exact Option.noConfusion h
  case _ r' heq =>
    simp only [Option.some.injEq] at h
    exact Or.inl (by rw [heq, h])
  · exact Or.inr h

theorem whitespace_wrap_ok_elim {α : Type} (fuel : Nat) (p : Parser α) (s : Input)
    (v : α) (rest : Input) (h : whitespace_wrap fuel p s = some (.ok (v, rest))) :
    ∃ s1 r1, p s1 = some (.ok (v, r1)) := by
  obtain ⟨_, mid, _, hl⟩ := right_ok_elim (space0 fuel) (left p (space0 fuel)) s v rest h
  obtain ⟨m2, _, hp, _⟩ := left_ok_elim p (space0 fuel) mid v rest hl
  exact ⟨mid, m2, hp⟩

theorem open_element_children_nil (fuel : Nat) (s : Input) (el : Element)
    (rest : Input) (h : open_element fuel s = some (.ok (el, rest))) :
    el.children = [] := by
  obtain ⟨s1, r1, hm⟩ := whitespace_wrap_ok_elim fuel _ s el rest h
  obtain ⟨a, _, hel⟩ := map_ok_elim _ _ s1 el r1 hm
  rw [hel]

theorem self_closing_element_children_nil (fuel : Nat) (s : Input) (el : Element)
    (rest : Input) (h : self_closing_element fuel s = some (.ok (el, rest))) :
    el.children = [] := by
  obtain ⟨s1, r1, hm⟩ := whitespace_wrap_ok_elim fuel _ s el rest h
  obtain ⟨a, _, hel⟩ := map_ok_elim _ _ s1 el r1 hm
  rw [hel]

theorem single_element_children_nil (fuel : Nat) (s : Input) (el : Element)
    (rest : Input) (h : single_element fuel s = some (.ok (el, rest))) :
    el.children = [] := by
  obtain ⟨s1, r1, he⟩ := whitespace_wrap_ok_elim fuel _ s el rest h
  rcases either_ok_elim _ _ s1 (el, r1) he with hc | ho
  · exact self_closing_element_children_nil fuel s1 el r1 hc
  · exact open_element_children_nil fuel s1 el r1 ho

theorem match_literal_nil_ok (s : Input) : match_literal [] s = some (.ok ((), s)) := by
  simp [match_literal, List.isPrefixOf]

theorem repParse_literal_nil (fuel : Nat) (s : Input) :
    repParse (match_literal []) fuel s = none := by
  induction fuel generalizing s with
  | zero => rfl
  | succ m ih => simp only [repParse, match_literal_nil_ok, ih]

theorem repParse_terminates {α : Type} (p : Parser α) (htot : ∀ s, p s ≠ none)
    (hcons : ∀ s a next, p s = some (.ok (a, next)) → next.length < s.length) :
    ∀ (fuel : Nat) (s : Input), s.length < fuel → ∃ r, repParse p fuel s = some r := by
  intro fuel
  induction fuel with
  | zero => exact fun s h => absurd h (by simp)
  | succ m ih =>
    intro s hlen
    cases hp : p s with
    | none => exact absurd hp (htot s)
    | some r =>
      cases r with
      | error e => exact ⟨([], s), by simp only [repParse, hp]⟩
      | ok v =>
        obtain ⟨a, next⟩ := v
        have h1 : next.length < s.length := hcons s a next hp
        have h2 : next.length < m := lt_of_lt_of_le h1 (Nat.lt_succ_iff.mp hlen)
        obtain ⟨⟨as, fin⟩, hr⟩ := ih next h2
        exact ⟨(a :: as, fin), by simp only [repParse, hp, hr]⟩

/-! ### Claim theorems: grammar layer and termination -/

/-- Claim C2, evaluation at the failing input: on the nested document the
entry point `element` succeeds through `single_element`'s open-tag branch
with a CHILDLESS `top` element and the whole rest of the document as
remainder, and even `parent_element` fails outright (its children are parsed
by the non-recursive `single_element`, so `<middle>` is taken childless and
`close_element "top"` then meets `</middle>`) — contradicting the claimed
nested two-child result with empty remainder, and the repo's own
`xml_parser` test. -/
theorem claim2_code_eval :
    element 200 "<top label=\"Top\"><semi-bottom label=\"Bottom\"/><middle><bottom label=\"Another bottom\"/></middle></top>".data
      = some (.ok (⟨"top".data, [("label".data, "Top".data)], []⟩,
          "<semi-bottom label=\"Bottom\"/><middle><bottom label=\"Another bottom\"/></middle></top>".data))
    ∧ parent_element 200 "<top label=\"Top\"><semi-bottom label=\"Bottom\"/><middle><bottom label=\"Another bottom\"/></middle></top>".data
      = some (.error "</middle></top>".data) :=
  ⟨rfl, rfl⟩

/-- Claim C7: `quoted_string` on `"Hello World!"` in quotes succeeds with
value `Hello World!` and empty remainder; with the closing quote missing it
fails and the carried view is the empty string, every character having been
consumed before the missing delimiter was detected. -/
theorem claim7_quoted_string :
    quoted_string 50 "\"Hello World!\"".data = some (.ok ("Hello World!".data, []))
    ∧ quoted_string 50 "\"Hello World!".data = some (.error []) :=
  ⟨rfl, rfl⟩

/-- Claim C8: the close-tag name filter is exact and case-sensitive, and its
rejection fails the whole `parent_element` parse: `close_element "div"`
rejects `</span>`, and `parent_element` fails on `<div></span>`, on the
case-variant `<div></DIV>`, and with surrounding whitespace. -/
theorem claim8_close_tag_mismatch :
    close_element 100 "div".data "</span>".data = some (.error "</span>".data)
    ∧ parent_element 100 "<div></span>".data = some (.error "</span>".data)
    ∧ parent_element 100 "<div></DIV>".data = some (.error "</DIV>".data)
    ∧ parent_element 100 "  <div>  </span>  ".data = some (.error "</span>  ".data) :=
  ⟨rfl, rfl, rfl, rfl⟩

/-- Claim C9: whenever `single_element` succeeds, the entry point `element`
returns its result (the `parent_element` branch is never reached); every
`single_element` success has empty children; and concretely `element` on
`<a></a>` yields the childless element `a` with remainder `</a>`. -/
theorem claim9_open_tag_first :
    (∀ (fuel : Nat) (s : Input) (r : Element × Input),
      single_element fuel s = some (.ok r) → element fuel s = some (.ok r))
    ∧ (∀ (fuel : Nat) (s : Input) (el : Element) (rest : Input),
      single_element fuel s = some (.ok (el, rest)) → el.children = [])
    ∧ element 100 "<a></a>".data = some (.ok (⟨"a".data, [], []⟩, "</a>".data)) :=
  ⟨fun fuel s r h => either_ok_left (single_element fuel) (parent_element fuel) s r h,
   fun fuel s el rest h => single_element_children_nil fuel s el rest h,
   rfl⟩

/-- Witness for Claim C9: at `<a></a>`, `single_element` succeeds with the
childless `a` and remainder `</a>`, `element` returns that same result, and
the children are empty. -/
theorem claim9_witness :
    single_element 100 "<a></a>".data = some (.ok (⟨"a".data, [], []⟩, "</a>".data))
    ∧ element 100 "<a></a>".data = some (.ok (⟨"a".data, [], []⟩, "</a>".data))
    ∧ (Element.mk "a".data [] []).children = [] :=
  ⟨rfl,
   claim9_open_tag_first.1 100 "<a></a>".data (⟨"a".data, [], []⟩, "</a>".data) rfl,
   claim9_open_tag_first.2.1 100 "<a></a>".data ⟨"a".data, [], []⟩ "</a>".data rfl⟩

/-- Claim C10: the repetition loops of `zero_or_more` and `one_or_more`
never terminate over an inner parser that succeeds without consuming, such
as `match_literal ""` (modelled: no fuel bound suffices); and under the
precondition that the inner parser consumes at least one character on every
success (and never itself diverges), `zero_or_more` terminates on every
input within `length + 1` iterations. -/
theorem claim10_repetition_termination :
    (∀ (fuel : Nat) (s : Input), zero_or_more fuel (match_literal []) s = none)
    ∧ (∀ (fuel : Nat) (s : Input), one_or_more fuel (match_literal []) s = none)
    ∧ (∀ {α : Type} (p : Parser α),
        (∀ s, p s ≠ none) →
        (∀ s a next, p s = some (.ok (a, next)) → next.length < s.length) →
        ∀ s : Input, ∃ r, zero_or_more (s.length + 1) p s = some (.ok r)) :=
  ⟨fun fuel s => by simp only [zero_or_more, repParse_literal_nil],
   fun fuel s => by simp only [one_or_more, match_literal_nil_ok, repParse_literal_nil],
   fun p htot hcons s => by
    obtain ⟨⟨as, fin⟩, hr⟩ :=
      repParse_terminates p htot hcons (s.length + 1) s (Nat.lt_succ_self _)
    exact ⟨(as, fin), by simp only [zero_or_more, hr]⟩⟩

/-- Witness for Claim C10: `any_char` never diverges and always consumes one
character on success, so `zero_or_more` over it terminates on `"ab"` with
fuel `length + 1 = 3`. -/
theorem claim10_witness :
    ∃ r, zero_or_more ("ab".data.length + 1) any_char "ab".data = some (.ok r) :=
  claim10_repetition_termination.2.2 any_char
    (fun s => by cases s <;> simp [any_char])
    (fun s a next h => by
      cases s with
      | nil => simp [any_char] at h
      | cons c rest =>
        simp only [any_char, Option.some.injEq, Except.ok.injEq, Prod.mk.injEq] at h
        rw [← h.2]
        simp)
    "ab".data

end Parcom
